import Mathlib

/-!
Verification of the FX core of the TravelCoin repository
(`src/fx_api.py`, and the credential helpers of `src/app.py`).

The Python code computes with `decimal.Decimal` under the default context
with `getcontext().prec = 28` (set at the top of `fx_api.py`) and the
default rounding mode `ROUND_HALF_EVEN`.  A finite `Decimal` is a pair of
an integer coefficient and an integer exponent with value
`coefficient * 10 ^ exponent`; arithmetic operations compute the exact
result and then round the coefficient to at most 28 significant digits
with round-half-even.  We embed finite decimals as the structure `Dec`
below and implement the context arithmetic on it.  Python integers are
unbounded, hence `Int`/`Nat` everywhere.
-/

/-- A finite Python `Decimal`: value `c * 10 ^ e`. -/
structure Dec where
  c : ℤ
  e : ℤ
  deriving DecidableEq, Repr

/-- Number of decimal digits of `n`, with fuel recursion (`0` has one digit,
matching the coefficient `0` of `Decimal("0")`).  The fuel of 200 covers
every coefficient appearing in this development. -/
def nDigitsAux : Nat → Nat → Nat
  | 0, _ => 1
  | f + 1, n => if n < 10 then 1 else nDigitsAux f (n / 10) + 1

/-- Decimal digit count of an integer's absolute value. -/
def nDigits (n : ℤ) : Nat := nDigitsAux 200 n.natAbs

/-- Round-half-even integer division `n / m` for a positive divisor `m`
(the rounding used by `decimal` in `ROUND_HALF_EVEN` mode).  Uses floor
division, so ties go to the even quotient on the number line, which for a
half-even rule agrees with Python's magnitude-based formulation. -/
def rheDiv (n m : ℤ) : ℤ :=
  let q := Int.fdiv n m
  let r := n - q * m
  if 2 * r < m then q
  else if m < 2 * r then q + 1
  else if q % 2 = 0 then q else q + 1

/-- Round a decimal so that its coefficient has at most `p` significant
digits, half-even, as the `decimal` context does after every arithmetic
operation.  The second branch handles the carry case where rounding up
`99...9` produces `10^p` (one digit too many). -/
def roundSig (p : Nat) (d : Dec) : Dec :=
  if nDigits d.c ≤ p then d
  else
    let drop := nDigits d.c - p
    let q := rheDiv d.c ((10 : ℤ) ^ drop)
    if nDigits q ≤ p then ⟨q, d.e + drop⟩ else ⟨q / 10, d.e + drop + 1⟩

/-- Rounding step of the context `getcontext().prec = 28` from `fx_api.py`. -/
def round28 : Dec → Dec := roundSig 28

/-- Exact product of two decimals (the ideal result before context rounding). -/
def Dec.exactMul (a b : Dec) : Dec := ⟨a.c * b.c, a.e + b.e⟩

/-- Exact difference of two decimals, on the smaller exponent. -/
def Dec.exactSub (a b : Dec) : Dec :=
  if a.e ≤ b.e then ⟨a.c - b.c * (10 : ℤ) ^ (b.e - a.e).toNat, a.e⟩
  else ⟨a.c * (10 : ℤ) ^ (a.e - b.e).toNat - b.c, b.e⟩

/-- `Decimal.__mul__` at `prec = 28`: exact product, then context rounding. -/
def Dec.mul (a b : Dec) : Dec := round28 (a.exactMul b)

/-- `Decimal.__sub__` at `prec = 28`: exact difference, then context rounding. -/
def Dec.sub (a b : Dec) : Dec := round28 (a.exactSub b)

/-- Round-half-even division on magnitudes of naturals (`m > 0`). -/
def rheDivNat (n m : Nat) : Nat :=
  let q := n / m
  let r := n % m
  if 2 * r < m then q
  else if m < 2 * r then q + 1
  else if q % 2 = 0 then q else q + 1

/-- One rounding pass of `Decimal.__truediv__`: round the quotient
`a / b` with the numerator pre-scaled by `10 ^ s` (or the denominator by
`10 ^ (-s)`), half-even on magnitudes, with the carry fixup. -/
def divCore (a b : Dec) (s : ℤ) : Dec :=
  let n2 : ℤ := if 0 ≤ s then a.c * (10 : ℤ) ^ s.toNat else a.c
  let d2 : ℤ := if 0 ≤ s then b.c else b.c * (10 : ℤ) ^ (-s).toNat
  let qr : Nat := rheDivNat n2.natAbs d2.natAbs
  let sgn : ℤ := Int.sign n2 * Int.sign d2
  if nDigits (qr : ℤ) ≤ 28 then ⟨sgn * (qr : ℤ), a.e - b.e - s⟩
  else ⟨sgn * ((qr / 10 : Nat) : ℤ), a.e - b.e - s + 1⟩

/-- `Decimal.__truediv__` at `prec = 28`: the quotient correctly rounded to
28 significant digits, half-even.  The scale `s` is chosen so that the
floor quotient has 28 or 29 digits; in the 29-digit case the scale is
lowered by one so that rounding happens at the 28th significant digit
directly (no double rounding).  Division by zero does not occur on the
code paths modelled here; it is mapped to `0`. -/
def Dec.div (a b : Dec) : Dec :=
  if b.c = 0 ∨ a.c = 0 then ⟨0, 0⟩
  else
    let s : ℤ := (nDigits b.c : ℤ) + 28 - (nDigits a.c : ℤ)
    let n2 : ℤ := if 0 ≤ s then a.c * (10 : ℤ) ^ s.toNat else a.c
    let d2 : ℤ := if 0 ≤ s then b.c else b.c * (10 : ℤ) ^ (-s).toNat
    if nDigits ((n2.natAbs / d2.natAbs : Nat) : ℤ) ≤ 28 then divCore a b s
    else divCore a b (s - 1)

/-- Coefficients of `a` and `b` rescaled to their common (smaller) exponent;
comparisons of decimals compare these integers. -/
def decAligned (a b : Dec) : ℤ × ℤ :=
  if a.e ≤ b.e then (a.c, b.c * (10 : ℤ) ^ (b.e - a.e).toNat)
  else (a.c * (10 : ℤ) ^ (a.e - b.e).toNat, b.c)

/-- Value order `a < b` on decimals (`Decimal.__lt__`). -/
def Dec.ltB (a b : Dec) : Bool := (decAligned a b).1 < (decAligned a b).2

/-- Value equality of decimals (`Decimal.__eq__`). -/
def Dec.eqvB (a b : Dec) : Bool := (decAligned a b).1 = (decAligned a b).2

/-- `abs a < abs b` on decimals (used for the `abs(change) < 0.1` test). -/
def Dec.absLtB (a b : Dec) : Bool :=
  (decAligned a b).1.natAbs < (decAligned a b).2.natAbs

/-- Rational value of a decimal. -/
def Dec.val (d : Dec) : ℚ := (d.c : ℚ) * (10 : ℚ) ^ d.e

/-- The decimal `1` (`Decimal("1")`). -/
def decOne : Dec := ⟨1, 0⟩

/-! ## Strings: `str.upper` and the `sorted` order

Currency codes are ASCII, so `str.upper` is modelled as the ASCII upper-case
map, and Python's string comparison (used by `sorted`) is lexicographic on
code points. -/

/-- ASCII upper-casing of one character (`str.upper` restricted to ASCII). -/
def upperChar (ch : Char) : Char :=
  if 'a' ≤ ch ∧ ch ≤ 'z' then Char.ofNat (ch.toNat - 32) else ch

/-- `s.upper()` for ASCII strings. -/
def toUpperStr (s : String) : String := ⟨s.data.map upperChar⟩

/-- Lexicographic strict order on code-point lists (Python string `<`). -/
def lexLt : List Char → List Char → Bool
  | [], [] => false
  | [], _ :: _ => true
  | _ :: _, [] => false
  | a :: as, b :: bs => if a < b then true else if b < a then false else lexLt as bs

/-- Python string order `a <= b` (code-point lexicographic). -/
def strLe (a b : String) : Prop := lexLt b.data a.data = false

instance : DecidableRel strLe := fun a b => instDecidableEqBool (lexLt b.data a.data) false

/-! ## The resilient fetcher (`_build_session` / `_get_json`)

`_build_session` mounts a `urllib3 Retry(total=3, status_forcelist=[429,
500, 502, 503, 504], allowed_methods=["GET"])` adapter.  `urllib3`
semantics: each response with a status in the forcelist decrements the
remaining retry budget; the request fails (`MaxRetryError`) when a
retryable response arrives and the budget is already exhausted.  So
`total=3` allows 3 retries after the initial request, i.e. up to 4
attempts in all.  The upstream is modelled as the function `resp` from
the attempt index to the HTTP status of that attempt; the decoded payload
is abstracted by the status of the successful attempt. -/

/-- Statuses in the `status_forcelist` of `_build_session`. -/
def retry_statuses : List Nat := [429, 500, 502, 503, 504]

/-- Errors surfaced by the embedded Python code. -/
inductive PyErr where
  | typeError
  | invalidOperation
  | rateNotFound
  | httpError (status : Nat)
  deriving DecidableEq, Repr

deriving instance DecidableEq for Except

/-- One `session.get` under a `Retry` with the given remaining budget,
starting at attempt index `i`. -/
def session_get (resp : Nat → Nat) : Nat → Nat → Except PyErr Nat
  | 0, i =>
    if resp i ∈ retry_statuses then Except.error (PyErr.httpError (resp i))
    else Except.ok (resp i)
  | t + 1, i =>
    if resp i ∈ retry_statuses then session_get resp t (i + 1)
    else Except.ok (resp i)

/-- The `total=3` budget configured in `_build_session`. -/
def retry_total : Nat := 3

/-- `_get_json`: a `session.get` through the retry adapter, then
`_raise_for_status_verbose` turns any status `>= 400` into an error. -/
def get_json_status (resp : Nat → Nat) : Except PyErr Nat :=
  match session_get resp retry_total 0 with
  | Except.error err => Except.error err
  | Except.ok s => if 400 ≤ s then Except.error (PyErr.httpError s) else Except.ok s

/-! ## The rate service

Network responses are abstracted by oracles: `get_current_rate` receives
the upstream `latest` endpoint as a function from the (upper-cased) pair
to the optional rate already passed through `_to_decimal`, and reports
alongside its result the number of network calls it made. -/

/-- `get_supported_currencies` on the keys of the upstream `/currencies`
JSON object: `sorted([k.upper() for k in data.keys()])`. -/
def get_supported_currencies (keys : List String) : List String :=
  List.insertionSort strLe (keys.map toUpperStr)

/-- `get_current_rate(base, target)`; the second component counts upstream
HTTP requests. -/
def get_current_rate (base target : String) (upstream : String → String → Option Dec) :
    Except PyErr Dec × Nat :=
  let b := toUpperStr base
  let t := toUpperStr target
  if b = t then (Except.ok decOne, 0)
  else
    match upstream b t with
    | some r => (Except.ok r, 1)
    | none => (Except.error PyErr.rateNotFound, 1)

/-- `Decimal.quantize(Decimal("0.0001"))` under the default context:
round the value to exponent `-4`, half-even; `InvalidOperation` when the
resulting coefficient has more than `prec = 28` digits. -/
def quantize4 (d : Dec) : Except PyErr Dec :=
  let q : ℤ :=
    if -4 ≤ d.e then d.c * (10 : ℤ) ^ (d.e + 4).toNat
    else rheDiv d.c ((10 : ℤ) ^ (-(d.e + 4)).toNat)
  if nDigits q ≤ 28 then Except.ok ⟨q, -4⟩ else Except.error PyErr.invalidOperation

/-- `get_currency_conversion_result(base, target, amount)` for a `Decimal`
amount: `(amount * rate).quantize(Decimal("0.0001"))`. -/
def get_currency_conversion_result (base target : String)
    (upstream : String → String → Option Dec) (amount : Dec) :
    Except PyErr Dec × Nat :=
  match get_current_rate base target upstream with
  | (Except.ok rate, n) => (quantize4 (amount.mul rate), n)
  | (Except.error err, n) => (Except.error err, n)

/-- Modelled from the spec's words for claim C1: "`amount * r` rounded to a
fixed 4-decimal-place scale using round-half-even".  Rounds the value of a
decimal to the exponent `-4`, half-even, with no context limitation. -/
def bankersRound4 (d : Dec) : Dec :=
  if -4 ≤ d.e then ⟨d.c * (10 : ℤ) ^ (d.e + 4).toNat, -4⟩
  else ⟨rheDiv d.c ((10 : ℤ) ^ (-(d.e + 4)).toNat), -4⟩

/-- Round-half-even of a rational to an integer (spec-side). -/
def rheQ (q : ℚ) : ℤ :=
  let n := ⌊q⌋
  if 2 * (q - n) < 1 then n
  else if 1 < 2 * (q - n) then n + 1
  else if n % 2 = 0 then n else n + 1

/-- Spec-side rounding of a rational to 4 decimal places, half-even. -/
def specRound4q (q : ℚ) : ℚ := (rheQ (q * 10 ^ 4) : ℚ) / 10 ^ 4

/-! ## The monthly series builder (`get_monthly_rates`)

The 30-day window `[today-29, today]` is abstracted by the day offsets
`0..29` (offset `i` stands for the date `start + timedelta(days=i)`, and
the dates of the window are pairwise distinct, oldest first).  The parsed
upstream time-series `rate_map` is the function from the day offset to the
optional rate for that date (already passed through `_to_decimal`), and
`live` is the value a `get_current_rate` fallback call would fetch.  The
second component of the result counts those live fallback calls. -/

/-- The `for i in range(30)` loop of `get_monthly_rates`, with the running
`last_val` and the count of `get_current_rate` fallback invocations. -/
def fill_loop (rateMap : Nat → Option Dec) (live : Dec) :
    List Nat → Option Dec → List Dec × Nat
  | [], _ => ([], 0)
  | i :: rest, lastVal =>
    match rateMap i with
    | some v =>
      let p := fill_loop rateMap live rest (some v)
      (v :: p.1, p.2)
    | none =>
      match lastVal with
      | some v =>
        let p := fill_loop rateMap live rest (some v)
        (v :: p.1, p.2)
      | none =>
        let p := fill_loop rateMap live rest (some live)
        (live :: p.1, p.2 + 1)

/-- `get_monthly_rates(base, target)`; the second component counts the
live `get_current_rate` fallback calls made inside the loop. -/
def get_monthly_rates (base target : String) (rateMap : Nat → Option Dec)
    (live : Dec) : List Dec × Nat :=
  if toUpperStr base = toUpperStr target then (List.replicate 30 decOne, 0)
  else fill_loop rateMap live (List.range 30) none

/-! ## The trend classifier (`analyze_rate_trend`) -/

/-- The percent change `(last - first) / first * Decimal("100")` as the code
computes it, i.e. with every operation rounded by the `prec = 28` context. -/
def trend_change (first lastv : Dec) : Dec :=
  ((lastv.sub first).div first).mul ⟨100, 0⟩

/-- `analyze_rate_trend(rates)`: `0` up, `1` down, `2` flat. -/
def analyze_rate_trend (rates : List Dec) : Nat :=
  if rates.length < 2 then 2
  else
    let first := rates.headD ⟨0, 0⟩
    let lastv := rates.getLastD ⟨0, 0⟩
    if first.c = 0 then 2
    else
      let change := trend_change first lastv
      if change.absLtB ⟨1, -1⟩ then 2
      else if Dec.ltB ⟨0, 0⟩ change then 0 else 1

/-! ## The decimal normalizer (`_to_decimal`)

`_to_decimal` dispatches on the runtime type of its argument: `Decimal`
values pass through, `int` and `str` go through `Decimal(str(x))`, `float`
through `Decimal(repr(x))`, and anything else raises `TypeError`.  The
runtime value is modelled as the closed union `PyVal`; a `float` carries
the exact rational value of the IEEE-754 binary64 number as a `Dec`
(every binary64 value is a finite decimal). -/

/-- A Python runtime value as seen by `_to_decimal`. -/
inductive PyVal where
  | ofDecimal (d : Dec)
  | ofInt (n : ℤ)
  | ofStr (s : String)
  | ofFloat (d : Dec)
  | ofNone
  | ofList (xs : List ℤ)
  deriving Repr

/-- Numeric value of a digit list (most significant first). -/
def natOfDigits (l : List Char) : Nat :=
  l.foldl (fun a ch => a * 10 + (ch.toNat - 48)) 0

/-- Split off a leading sign character. -/
def parseSign : List Char → ℤ × List Char
  | '+' :: r => (1, r)
  | '-' :: r => (-1, r)
  | r => (1, r)

/-- `Decimal(s)` for a plain finite numeric string: optional sign, digits
with an optional fraction part, optional exponent.  Returns `none` when the
string is not a numeric string (`InvalidOperation` in Python).  NaN and
infinity literals, underscores and surrounding whitespace, which CPython's
`decimal` also accepts, are outside the fragment modelled here and are not
used by any theorem below. -/
def parseDecString (s : String) : Option Dec :=
  let (sgn, r0) := parseSign s.data
  let ip := r0.takeWhile Char.isDigit
  let r1 := r0.dropWhile Char.isDigit
  let (fp, r2) :=
    match r1 with
    | '.' :: r => (r.takeWhile Char.isDigit, r.dropWhile Char.isDigit)
    | _ => ([], r1)
  if ip = [] ∧ fp = [] then none
  else
    match r2 with
    | [] => some ⟨sgn * natOfDigits (ip ++ fp), -(fp.length : ℤ)⟩
    | eCh :: r3 =>
      if eCh = 'e' ∨ eCh = 'E' then
        let (esgn, r4) := parseSign r3
        let ed := r4.takeWhile Char.isDigit
        let r5 := r4.dropWhile Char.isDigit
        if ed = [] ∨ r5 ≠ [] then none
        else some ⟨sgn * natOfDigits (ip ++ fp), esgn * natOfDigits ed - (fp.length : ℤ)⟩
      else none

/-- Bit length of a natural number (fuel recursion; fuel 400 covers all
numbers appearing here). -/
def bitlenAux : Nat → Nat → Nat
  | 0, _ => 0
  | f + 1, n => if n = 0 then 0 else bitlenAux f (n / 2) + 1

/-- Bit length of a natural number. -/
def bitlen (n : Nat) : Nat := bitlenAux 400 n

/-- Does `2 ^ p ≤ a / b` hold (for positive `a b`)? -/
def pow2LeRatio (a b : Nat) (p : ℤ) : Bool :=
  if 0 ≤ p then b * 2 ^ p.toNat ≤ a else b ≤ a * 2 ^ (-p).toNat

/-- Floor of the base-2 logarithm of the positive ratio `a / b`: the bit
lengths give a candidate that is off by at most one. -/
def ilog2Ratio (a b : Nat) : ℤ :=
  let t : ℤ := (bitlen a : ℤ) - (bitlen b : ℤ)
  if pow2LeRatio a b t then t else t - 1

/-- The IEEE-754 binary64 value nearest to the value of `d` (round half to
even on the 53-bit mantissa), returned as the exact `Dec` it denotes.
Overflow and subnormals are outside the range used here. -/
def roundToDouble (d : Dec) : Dec :=
  if d.c = 0 then ⟨0, 0⟩
  else
    let a : Nat := d.c.natAbs * (if 0 ≤ d.e then 10 ^ d.e.toNat else 1)
    let b : Nat := if 0 ≤ d.e then 1 else 10 ^ (-d.e).toNat
    let expo : ℤ := ilog2Ratio a b
    let num : Nat := a * (if 0 ≤ 52 - expo then 2 ^ (52 - expo).toNat else 1)
    let den : Nat := b * (if 0 ≤ 52 - expo then 1 else 2 ^ (expo - 52).toNat)
    let m0 : Nat := rheDivNat num den
    let m : Nat := if m0 = 2 ^ 53 then 2 ^ 52 else m0
    let expo2 : ℤ := if m0 = 2 ^ 53 then expo + 1 else expo
    let sgn : ℤ := if d.c < 0 then -1 else 1
    if 0 ≤ expo2 - 52 then ⟨sgn * ((m * 2 ^ (expo2 - 52).toNat : Nat) : ℤ), 0⟩
    else ⟨sgn * ((m * 5 ^ (52 - expo2).toNat : Nat) : ℤ), -(52 - expo2)⟩

/-- First rounding of `d` to `k` significant digits (for ascending `k` in
`ks`) whose value rounds back to the same binary64 `d`; falls back to 17
significant digits, which always round-trips for a true binary64 value. -/
def reprFirst (d : Dec) : List Nat → Dec
  | [] => roundSig 17 d
  | k :: rest =>
    let cand := roundSig k d
    if (roundToDouble cand).eqvB d then cand else reprFirst d rest

/-- `repr(x)` for a float `x` (CPython `float_repr_style` "short"): the
shortest decimal representation that round-trips through binary64, as a
value.  `float_repr d` is the exact decimal value the text `repr(x)`
denotes, for the binary64 `x` of value `d`. -/
def float_repr (d : Dec) : Dec :=
  if d.c = 0 then ⟨0, 1⟩ else reprFirst d ((List.range 17).map (· + 1))

/-- `_to_decimal(x)`. -/
def to_decimal (v : PyVal) : Except PyErr Dec :=
  match v with
  | PyVal.ofDecimal d => Except.ok d
  | PyVal.ofInt n => Except.ok ⟨n, 0⟩
  | PyVal.ofStr s =>
    match parseDecString s with
    | some d => Except.ok d
    | none => Except.error PyErr.invalidOperation
  | PyVal.ofFloat d => Except.ok (float_repr d)
  | PyVal.ofNone => Except.error PyErr.typeError
  | PyVal.ofList _ => Except.error PyErr.typeError

/-! ## The service layer around the core (`src/app.py`)

`bcrypt.hashpw`/`bcrypt.checkpw` are external; they are passed in as
oracles, with `none` modelling a raised exception (which `hash_pw` and
`check_pw` swallow).  The Mongo `users` collection is modelled as a list
of records, `uuid.uuid4()` as an explicit fresh-id argument. -/

/-- A document of the `users` collection. -/
structure UserRec where
  user_id : String
  username : String
  password : Option String
  deriving Repr

/-- `hash_pw(password)`: `None` for passwords longer than 64 characters,
otherwise `bcrypt.hashpw` with exceptions swallowed to `None`. -/
def hash_pw (password : String) (bcryptHash : String → Option String) : Option String :=
  if 64 < password.length then none else bcryptHash password

/-- `check_pw(password, hashed)`: `False` for passwords longer than 64
characters; `bcrypt.checkpw(password, hashed)` otherwise, with any
exception (in particular the `TypeError` raised when `hashed` is `None`)
swallowed to `False`. -/
def check_pw (password : String) (hashed : Option String)
    (bcryptCheck : String → String → Option Bool) : Bool :=
  if 64 < password.length then false
  else
    match hashed with
    | none => false
    | some h => (bcryptCheck password h).getD false

/-- `POST /signup`: 409 (`none`) when the username exists, otherwise insert
a user document whose `password` field is `hash_pw(password)` and answer
201 with the new document. -/
def signup (username password uid : String) (usersDb : List UserRec)
    (bcryptHash : String → Option String) : Option UserRec × List UserRec :=
  if usersDb.any (fun u => u.username = username) then (none, usersDb)
  else
    let u : UserRec := ⟨uid, username, hash_pw password bcryptHash⟩
    (some u, usersDb ++ [u])

/-- `POST /login`, reduced to whether a session is created: missing fields
fail, an unknown username fails, otherwise `check_pw` against the stored
credential decides. -/
def login (username password : String) (usersDb : List UserRec)
    (bcryptCheck : String → String → Option Bool) : Bool :=
  if username = "" ∨ password = "" then false
  else
    match usersDb.find? (fun u => u.username = username) with
    | none => false
    | some u => check_pw password u.password bcryptCheck

/-! ## Remaining spec-side definitions used in claim statements -/

/-- The exact percent change of the spec's trend formula,
`(last - first) / first * 100`, over the rational values. -/
def exact_change (first lastv : Dec) : ℚ :=
  (lastv.val - first.val) / first.val * 100

/-- The IEEE-754 binary64 value nearest to `1/10`:
`3602879701896397 * 2 ^ (-55)`, written as the finite decimal
`(3602879701896397 * 5 ^ 55) * 10 ^ (-55)`. -/
def double01 : Dec := ⟨3602879701896397 * 5 ^ 55, -55⟩

/-! # Theorems -/

/-! ## C2: the monthly series always has exactly 30 entries -/

theorem fill_loop_length (rateMap : Nat → Option Dec) (live : Dec) :
    ∀ (l : List Nat) (acc : Option Dec),
      (fill_loop rateMap live l acc).1.length = l.length := by
  intro l
  induction l with
  | nil => intro acc; rfl
  | cons i rest ih =>
    intro acc
    cases h : rateMap i with
    | some v => simp [fill_loop, h, ih]
    | none => cases acc <;> simp [fill_loop, h, ih]

/-- C2: for every base/target pair and every upstream time-series response
(dense, with gaps, or entirely empty — any `rateMap` whatsoever, including
the everywhere-`none` one), `get_monthly_rates` returns a list of exactly
30 rate entries; entry `i` of the list is the rate for the calendar day
`(today - 29) + i`, so the entries cover `[today - 29, today]` oldest to
newest, and every entry is a present `Dec` value (none is `None`/absent). -/
theorem c2_monthly_series_always_30 (base target : String)
    (rateMap : Nat → Option Dec) (live : Dec) :
    (get_monthly_rates base target rateMap live).1.length = 30 := by
  unfold get_monthly_rates
  split
  · simp
  · rw [fill_loop_length]; simp

/-! ## C6: `get_current_rate(X, X) = 1` with zero network calls -/

/-- C6: whenever base and target agree after upper-casing, `get_current_rate`
returns exactly `Decimal("1")` and performs zero network calls, for every
upstream behaviour. -/
theorem c6_same_currency_rate_one (base target : String)
    (upstream : String → String → Option Dec)
    (h : toUpperStr base = toUpperStr target) :
    get_current_rate base target upstream = (Except.ok decOne, 0) := by
  simp [get_current_rate, h]

theorem c6_same_currency_rate_one_witness :
    get_current_rate "usd" "USD" (fun _ _ => none) = (Except.ok decOne, 0) :=
  c6_same_currency_rate_one "usd" "USD" (fun _ _ => none) (by decide)

/-! ## C10: passwords longer than 64 characters -/

theorem find?_append_of_not_found {α : Type} (p : α → Bool) (l₁ l₂ : List α)
    (h : l₁.find? p = none) : (l₁ ++ l₂).find? p = l₂.find? p := by
  induction l₁ with
  | nil => rfl
  | cons x rest ih =>
    rw [List.find?_cons] at h
    cases hx : p x with
    | true => rw [hx] at h; exact absurd h (by simp)
    | false =>
      rw [hx] at h
      simpa [List.find?_cons, hx] using ih h

/-- C10: for every password longer than 64 characters, `hash_pw` returns
`None` (never raising, whatever `bcrypt` does), `check_pw` rejects that
password against any stored hash, `signup` with a fresh username still
answers 201 but stores a `None` credential, and `login` for that account
then fails for every attempted password. -/
theorem c10_long_password_unusable_account (password : String)
    (hlen : 64 < password.length) :
    (∀ bcryptHash, hash_pw password bcryptHash = none)
    ∧ (∀ hashed bcryptCheck, check_pw password hashed bcryptCheck = false)
    ∧ (∀ username uid usersDb bcryptHash,
        usersDb.any (fun u => u.username = username) = false →
        signup username password uid usersDb bcryptHash
          = (some ⟨uid, username, none⟩, usersDb ++ [⟨uid, username, none⟩]))
    ∧ (∀ username uid usersDb bcryptHash attempt bcryptCheck,
        usersDb.any (fun u => u.username = username) = false →
        login username attempt
          (signup username password uid usersDb bcryptHash).2 bcryptCheck = false) := by
  have hash0 : ∀ bcryptHash, hash_pw password bcryptHash = none := by
    intro bh; simp [hash_pw, hlen]
  refine ⟨hash0, ?_, ?_, ?_⟩
  · intro hashed bc; simp [check_pw, hlen]
  · intro username uid usersDb bh hfresh
    simp [signup, hfresh, hash0]
  · intro username uid usersDb bh attempt bc hfresh
    unfold login
    split
    · rfl
    · have hfind : usersDb.find? (fun u => u.username = username) = none := by
        rw [List.find?_eq_none]
        intro u hu
        have := List.any_eq_false.mp hfresh u hu
        simpa using this
      rw [signup, if_neg (by simp [hfresh]), hash0,
        find?_append_of_not_found _ _ _ hfind]
      simp [List.find?_cons, check_pw]

theorem c10_long_password_unusable_account_witness :
    (hash_pw "aaaaaaaaaaaaaaaaaaaaaaaaaaaaaaaaaaaaaaaaaaaaaaaaaaaaaaaaaaaaaaaaa"
        (fun s => some s) = none)
    ∧ login "alice" "pw"
        (signup "alice"
          "aaaaaaaaaaaaaaaaaaaaaaaaaaaaaaaaaaaaaaaaaaaaaaaaaaaaaaaaaaaaaaaaa"
          "id1" [] (fun s => some s)).2 (fun _ _ => some true) = false := by
  have h := c10_long_password_unusable_account
    "aaaaaaaaaaaaaaaaaaaaaaaaaaaaaaaaaaaaaaaaaaaaaaaaaaaaaaaaaaaaaaaaa" (by decide)
  exact ⟨h.1 _, h.2.2.2 "alice" "id1" [] _ "pw" _ (by decide)⟩

/-! ## C4: the retry budget of the fetcher

`Retry(total=3)` is a budget of 3 *retries*, i.e. up to 4 attempts in all:
an upstream that answers 503 on three consecutive attempts and succeeds on
the 4th makes the fetch succeed, contradicting the claim; the fetch fails
only when all four attempts receive retryable statuses. -/

/-- C4 counterexample: the claim states that against an upstream returning
HTTP 503 on three consecutive attempts and succeeding on a 4th attempt the
fetch must still fail; at the concrete upstream answering 503, 503, 503,
200 the fetch in fact returns the successful payload. -/
theorem c4_counterexample :
    ¬ (∀ resp : Nat → Nat,
        resp 0 = 503 → resp 1 = 503 → resp 2 = 503 → resp 3 = 200 →
        ∃ err, get_json_status resp = Except.error err) := by
  intro h
  obtain ⟨err, herr⟩ :=
    h (fun i => if i < 3 then 503 else 200) rfl rfl rfl rfl
  rw [show get_json_status (fun i => if i < 3 then 503 else 200) = Except.ok 200
    from by decide] at herr
  exact absurd herr (by simp)

/-- C4 amended: the retry budget is 3 retries on top of the initial attempt
(4 attempts total): when all four attempts receive retryable statuses the
fetch fails with the last status; a retryable status on attempt 1 followed
by a non-retryable success status on attempt 2 yields the successful
payload; and in particular 503 on three consecutive attempts followed by a
200 on the 4th attempt succeeds. -/
theorem c4_retry_budget_four_attempts (resp : Nat → Nat) :
    ((∀ i, i ≤ 3 → resp i ∈ retry_statuses) →
      get_json_status resp = Except.error (PyErr.httpError (resp 3)))
    ∧ (resp 0 ∈ retry_statuses → resp 1 ∉ retry_statuses → resp 1 < 400 →
      get_json_status resp = Except.ok (resp 1))
    ∧ (resp 0 = 503 → resp 1 = 503 → resp 2 = 503 → resp 3 = 200 →
      get_json_status resp = Except.ok 200) := by
  refine ⟨?_, ?_, ?_⟩
  · intro h
    have h0 := h 0 (by omega); have h1 := h 1 (by omega)
    have h2 := h 2 (by omega); have h3 := h 3 (by omega)
    simp [get_json_status, retry_total, session_get, h0, h1, h2, h3]
  · intro h0 h1 h400
    simp [get_json_status, retry_total, session_get, h0, h1]
    omega
  · intro h0 h1 h2 h3
    simp [get_json_status, retry_total, session_get, h0, h1, h2, h3, retry_statuses]

theorem c4_retry_budget_four_attempts_witness :
    (get_json_status (fun _ => 503) = Except.error (PyErr.httpError 503))
    ∧ (get_json_status (fun i => if i = 0 then 429 else 200) = Except.ok 200) := by
  refine ⟨(c4_retry_budget_four_attempts (fun _ => 503)).1 (fun i _ => by decide), ?_⟩
  exact (c4_retry_budget_four_attempts (fun i => if i = 0 then 429 else 200)).2.1
    (by decide) (by decide) (by decide)

/-! ## C5: supported currencies are sorted; duplicates after upper-casing

The source builds `sorted([k.upper() for k in data.keys()])`.  JSON object
keys are pairwise distinct as strings, but two distinct keys can collide
after upper-casing, so the claim's "no duplicate codes" fails. -/

theorem lexLt_asymm : ∀ as bs : List Char, lexLt as bs = true → lexLt bs as = false := by
  intro as
  induction as with
  | nil =>
    intro bs h
    cases bs with
    | nil => exact absurd h (by simp [lexLt])
    | cons b bs => rfl
  | cons a as ih =>
    intro bs h
    cases bs with
    | nil => exact absurd h (by simp [lexLt])
    | cons b bs =>
      simp only [lexLt] at h ⊢
      by_cases hab : a < b
      · simp [hab, lt_asymm hab]
      · by_cases hba : b < a
        · simp [hab, hba] at h
        · simp only [hab, hba, if_false] at h ⊢
          exact ih bs h

theorem lexLt_eq_of_not_lt : ∀ as bs : List Char,
    lexLt as bs = false → lexLt bs as = false → as = bs := by
  intro as
  induction as with
  | nil =>
    intro bs h _
    cases bs with
    | nil => rfl
    | cons b bs => exact absurd h (by simp [lexLt])
  | cons a as ih =>
    intro bs h h'
    cases bs with
    | nil => exact absurd h' (by simp [lexLt])
    | cons b bs =>
      simp only [lexLt] at h h'
      by_cases hab : a < b
      · simp [hab] at h
      · by_cases hba : b < a
        · simp [hba, hab] at h'
        · simp only [hab, hba, if_false] at h h'
          rw [le_antisymm (not_lt.mp hba) (not_lt.mp hab), ih bs h h']

theorem lexLt_trans : ∀ as bs cs : List Char,
    lexLt as bs = true → lexLt bs cs = true → lexLt as cs = true := by
  intro as
  induction as with
  | nil =>
    intro bs cs h h'
    cases bs with
    | nil => exact absurd h (by simp [lexLt])
    | cons b bs =>
      cases cs with
      | nil => exact absurd h' (by simp [lexLt])
      | cons c cs => rfl
  | cons a as ih =>
    intro bs cs h h'
    cases bs with
    | nil => exact absurd h (by simp [lexLt])
    | cons b bs =>
      cases cs with
      | nil => exact absurd h' (by simp [lexLt])
      | cons c cs =>
        simp only [lexLt] at h h' ⊢
        by_cases hab : a < b
        · by_cases hbc : b < c
          · simp [lt_trans hab hbc]
          · by_cases hcb : c < b
            · simp [hab, hbc, hcb] at h'
            · have : b = c := le_antisymm (not_lt.mp hcb) (not_lt.mp hbc)
              subst this
              simp [hab]
        · by_cases hba : b < a
          · simp [hab, hba] at h
          · have hEq : a = b := le_antisymm (not_lt.mp hba) (not_lt.mp hab)
            subst hEq
            simp only [lt_self_iff_false, if_false] at h
            by_cases hac : a < c
            · simp [hac]
            · by_cases hca : c < a
              · simp [hac, hca] at h'
              · simp only [hac, hca, if_false] at h' ⊢
                exact ih bs cs h h'

instance : IsTotal String strLe := by
  constructor
  intro a b
  by_cases h : lexLt b.data a.data = false
  · exact Or.inl h
  · have h' : lexLt b.data a.data = true := by
      cases hx : lexLt b.data a.data
      · exact absurd hx h
      · rfl
    exact Or.inr (lexLt_asymm _ _ h')

instance : IsTrans String strLe := by
  constructor
  intro a b c hab hbc
  unfold strLe at *
  cases hca : lexLt c.data a.data
  · rfl
  · exfalso
    cases hab' : lexLt a.data b.data
    · rw [lexLt_eq_of_not_lt a.data b.data hab' hab] at hca
      rw [hca] at hbc
      exact Bool.noConfusion hbc
    · have := lexLt_trans c.data a.data b.data hca hab'
      rw [this] at hbc
      exact Bool.noConfusion hbc

/-- C5 counterexample: the claim promises no duplicate codes for any
upstream key casing; the upstream key list `["usd", "USD"]` (two distinct
JSON keys) produces `["USD", "USD"]`, which has a duplicate. -/
theorem c5_counterexample :
    ¬ (∀ keys : List String, keys.Nodup →
        (get_supported_currencies keys).Nodup) := by
  intro h
  exact absurd (h ["usd", "USD"] (by decide)) (by decide)

/-- C5 amended: `get_supported_currencies` is always sorted ascending in the
code-point string order that Python's `sorted` uses; it has no duplicate
codes provided the upstream keys are pairwise distinct *after* upper-casing
(distinctness of the raw keys alone is not enough). -/
theorem c5_sorted_dedup_if_case_distinct (keys : List String) :
    List.Sorted strLe (get_supported_currencies keys)
    ∧ ((keys.map toUpperStr).Nodup → (get_supported_currencies keys).Nodup) := by
  constructor
  · exact List.sorted_insertionSort strLe (keys.map toUpperStr)
  · intro h
    exact ((List.perm_insertionSort strLe (keys.map toUpperStr)).nodup_iff).mpr h

theorem c5_sorted_dedup_if_case_distinct_witness :
    List.Sorted strLe (get_supported_currencies ["usd", "eur"])
    ∧ (get_supported_currencies ["usd", "eur"]).Nodup :=
  ⟨(c5_sorted_dedup_if_case_distinct ["usd", "eur"]).1,
    (c5_sorted_dedup_if_case_distinct ["usd", "eur"]).2 (by decide)⟩

/-! ## C3: when the live fallback fires in `get_monthly_rates`

In the loop, `last_val` starts as `None` and is set by every branch, so the
`get_current_rate` fallback fires exactly when the *first* day of the
window has no upstream rate — also when the upstream did return data for
later days (e.g. a window starting on a weekend).  The claim's "only when
the upstream returned no data at all" is therefore wrong; "exactly once"
and the memoization are right. -/

theorem fill_loop_count_acc_some (rateMap : Nat → Option Dec) (live : Dec) :
    ∀ (l : List Nat) (v : Dec), (fill_loop rateMap live l (some v)).2 = 0 := by
  intro l
  induction l with
  | nil => intro v; rfl
  | cons i rest ih =>
    intro v
    cases h : rateMap i with
    | some w => simp [fill_loop, h, ih]
    | none => simp [fill_loop, h, ih]

theorem fill_loop_cons_hit (rateMap : Nat → Option Dec) (live : Dec)
    (i : Nat) (rest : List Nat) (acc : Option Dec) (v : Dec)
    (h : rateMap i = some v) :
    fill_loop rateMap live (i :: rest) acc
      = (v :: (fill_loop rateMap live rest (some v)).1,
          (fill_loop rateMap live rest (some v)).2) := by
  cases acc <;> simp only [fill_loop, h]

theorem fill_loop_cons_gap_seed (rateMap : Nat → Option Dec) (live : Dec)
    (i : Nat) (rest : List Nat) (h : rateMap i = none) :
    fill_loop rateMap live (i :: rest) none
      = (live :: (fill_loop rateMap live rest (some live)).1,
          (fill_loop rateMap live rest (some live)).2 + 1) := by
  simp only [fill_loop, h]

theorem fill_loop_cons_gap_carry (rateMap : Nat → Option Dec) (live : Dec)
    (i : Nat) (rest : List Nat) (v : Dec) (h : rateMap i = none) :
    fill_loop rateMap live (i :: rest) (some v)
      = (v :: (fill_loop rateMap live rest (some v)).1,
          (fill_loop rateMap live rest (some v)).2) := by
  simp only [fill_loop, h]

theorem fill_loop_get_acc_some (rateMap : Nat → Option Dec) (live : Dec) :
    ∀ (l : List Nat) (v : Dec) (i : Nat), i < l.length →
      (∀ j ∈ l.take (i + 1), rateMap j = none) →
      (fill_loop rateMap live l (some v)).1.get? i = some v := by
  intro l
  induction l with
  | nil => intro v i hi _; exact absurd hi (by simp)
  | cons k rest ih =>
    intro v i hi hnone
    have hk : rateMap k = none := hnone k (by simp [List.take_cons])
    cases i with
    | zero => simp [fill_loop, hk]
    | succ i' =>
      have hi' : i' < rest.length := by simpa using hi
      have hnone' : ∀ j ∈ rest.take (i' + 1), rateMap j = none := by
        intro j hj
        exact hnone j (by simp [List.take_cons]; exact Or.inr hj)
      simp only [fill_loop, hk]
      simpa using ih v i' hi' hnone'

/-- C3 counterexample: the claim states the live fallback fires only when
the upstream returned no data at all for the window; with an upstream that
has no rate for day 0 but does have one for day 1, the fallback fires
anyway (the call count is 1). -/
theorem c3_counterexample :
    ¬ (∀ (base target : String) (rateMap : Nat → Option Dec) (live : Dec),
        toUpperStr base ≠ toUpperStr target →
        1 ≤ (get_monthly_rates base target rateMap live).2 →
        ∀ i, i < 30 → rateMap i = none) := by
  intro h
  have := h "EUR" "USD" (fun i => if i = 1 then some ⟨2, 0⟩ else none) ⟨7, 0⟩
    (by decide) (by decide) 1 (by omega)
  exact absurd this (by simp)

/-- C3 amended: for `base != target`, the live `get_current_rate` fallback
is invoked exactly when the upstream returned no rate for the *first* day
of the window (in particular, whenever it returned no data at all), and in
that case it is invoked exactly once, with the fetched value memoized as
the last-known value for every later day up to (and excluding) the first
upstream-reported day. -/
theorem c3_live_fallback_first_day (base target : String)
    (rateMap : Nat → Option Dec) (live : Dec)
    (h : toUpperStr base ≠ toUpperStr target) :
    ((get_monthly_rates base target rateMap live).2
      = if rateMap 0 = none then 1 else 0)
    ∧ (∀ i, i < 30 → (∀ j, j ≤ i → rateMap j = none) →
        (get_monthly_rates base target rateMap live).1.get? i = some live) := by
  have hrange : List.range 30 = 0 :: List.map Nat.succ (List.range 29) :=
    List.range_succ_eq_map 29
  constructor
  · unfold get_monthly_rates
    rw [if_neg h, hrange]
    cases h0 : rateMap 0 with
    | some v =>
      rw [if_neg (by simp), fill_loop_cons_hit rateMap live 0 _ none v h0]
      exact fill_loop_count_acc_some rateMap live _ v
    | none =>
      rw [if_pos rfl, fill_loop_cons_gap_seed rateMap live 0 _ h0,
        fill_loop_count_acc_some rateMap live _ live]
  · intro i hi hnone
    unfold get_monthly_rates
    rw [if_neg h, hrange]
    have h0 : rateMap 0 = none := hnone 0 (by omega)
    cases i with
    | zero => rw [fill_loop_cons_gap_seed rateMap live 0 _ h0]; rfl
    | succ i' =>
      rw [fill_loop_cons_gap_seed rateMap live 0 _ h0]
      have hi' : i' < (List.map Nat.succ (List.range 29)).length := by
        simp only [List.length_map, List.length_range]
        omega
      have hnone' : ∀ j ∈ (List.map Nat.succ (List.range 29)).take (i' + 1),
          rateMap j = none := by
        intro j hj
        rw [← List.map_take, List.take_range] at hj
        obtain ⟨j0, hj0, rfl⟩ := List.mem_map.mp hj
        have hj0' : j0 < min (i' + 1) 29 := List.mem_range.mp hj0
        exact hnone (Nat.succ j0) (by omega)
      simpa using fill_loop_get_acc_some rateMap live
        (List.map Nat.succ (List.range 29)) live i' hi' hnone'

theorem c3_live_fallback_first_day_witness :
    (get_monthly_rates "EUR" "USD" (fun i => if i = 1 then some ⟨2, 0⟩ else none)
      ⟨7, 0⟩).2 = 1 := by
  have h := c3_live_fallback_first_day "EUR" "USD"
    (fun i => if i = 1 then some ⟨2, 0⟩ else none) ⟨7, 0⟩ (by decide)
  rw [h.1]
  decide

/-! ## C7: the trend classifier

The case structure of the claim is right, and intermediate elements indeed
never matter; but the percent change the code compares against the
thresholds is computed with `prec = 28` context arithmetic, not exactly.
An exact change of magnitude just below `0.1` whose 28-digit rounding
lands on `0.1` classifies as up/down where the claim's exact formula says
flat. -/

theorem analyze_rate_trend_append (a b : Dec) (mid : List Dec) :
    analyze_rate_trend (a :: mid ++ [b])
      = if a.c = 0 then 2
        else if (trend_change a b).absLtB ⟨1, -1⟩ then 2
        else if Dec.ltB ⟨0, 0⟩ (trend_change a b) then 0 else 1 := by
  have hlast : (a :: mid ++ [b]).getLastD ⟨0, 0⟩ = b := by
    rw [show a :: mid ++ [b] = (a :: mid) ++ [b] from rfl, List.getLastD_concat]
  have hlen : ¬ (a :: mid ++ [b]).length < 2 := by
    simp only [List.length_cons, List.length_append, List.length_singleton]
    omega
  have hhead : (a :: mid ++ [b]).headD ⟨0, 0⟩ = a := rfl
  unfold analyze_rate_trend
  rw [if_neg hlen]
  simp only [hhead, hlast]

/-- C7 counterexample: the claim classifies by the exact percent change
`(last - first) / first * 100`; with `first = 1` and
`last = 1.00099999999999999999999999999995` (an exact decimal input), the
exact change has magnitude `0.09999999999999999999999999999.5 < 0.1`, so
the claim requires `flat`, but the code's 28-significant-digit context
arithmetic rounds the change up to exactly `0.1` and classifies `up`. -/
theorem c7_counterexample :
    ¬ (∀ (a b : Dec) (mid : List Dec), a.c ≠ 0 →
        |exact_change a b| < 1 / 10 →
        analyze_rate_trend (a :: mid ++ [b]) = 2) := by
  intro h
  have h2 := h ⟨1, 0⟩ ⟨10 ^ 32 + 99999999999999999999999999995, -32⟩ []
    (by decide) ?_
  · exact absurd h2 (by decide)
  · unfold exact_change Dec.val
    norm_num
    rw [abs_of_pos (by norm_num)]
    norm_num

/-- C7 amended: the trend classifier is the piecewise function — fewer than
2 elements yields flat (`2`); a first element equal to `0` yields flat;
otherwise, with the percent change `(last - first) / first * 100` computed
in the 28-significant-digit decimal context (`trend_change`, which can
differ from the exact value only in the 28th significant digit), a
magnitude below `0.1` yields flat, a positive change yields up (`0`) and a
negative change yields down (`1`); intermediate elements never affect the
result. -/
theorem c7_trend_piecewise :
    (∀ rates : List Dec, rates.length < 2 → analyze_rate_trend rates = 2)
    ∧ (∀ (a b : Dec) (mid mid' : List Dec),
        analyze_rate_trend (a :: mid ++ [b]) = analyze_rate_trend (a :: mid' ++ [b]))
    ∧ (∀ (a b : Dec) (mid : List Dec), a.c = 0 →
        analyze_rate_trend (a :: mid ++ [b]) = 2)
    ∧ (∀ (a b : Dec) (mid : List Dec), a.c ≠ 0 →
        analyze_rate_trend (a :: mid ++ [b])
          = if (trend_change a b).absLtB ⟨1, -1⟩ then 2
            else if Dec.ltB ⟨0, 0⟩ (trend_change a b) then 0 else 1) := by
  refine ⟨?_, ?_, ?_, ?_⟩
  · intro rates hlt
    unfold analyze_rate_trend
    rw [if_pos hlt]
  · intro a b mid mid'
    rw [analyze_rate_trend_append, analyze_rate_trend_append]
  · intro a b mid h0
    rw [analyze_rate_trend_append, if_pos h0]
  · intro a b mid h0
    rw [analyze_rate_trend_append, if_neg h0]

theorem c7_trend_piecewise_witness :
    analyze_rate_trend [⟨1, 0⟩, ⟨12, -1⟩] = 0
    ∧ analyze_rate_trend [⟨1, 0⟩, ⟨8, -1⟩] = 1
    ∧ analyze_rate_trend [⟨1, 0⟩, ⟨10009, -4⟩] = 2
    ∧ analyze_rate_trend [⟨0, 0⟩, ⟨5, 0⟩] = 2 := by
  refine ⟨?_, ?_, ?_, ?_⟩
  · rw [show ([⟨1, 0⟩, ⟨12, -1⟩] : List Dec) = ⟨1, 0⟩ :: [] ++ [⟨12, -1⟩] from rfl,
      c7_trend_piecewise.2.2.2 ⟨1, 0⟩ ⟨12, -1⟩ [] (by decide)]
    decide
  · rw [show ([⟨1, 0⟩, ⟨8, -1⟩] : List Dec) = ⟨1, 0⟩ :: [] ++ [⟨8, -1⟩] from rfl,
      c7_trend_piecewise.2.2.2 ⟨1, 0⟩ ⟨8, -1⟩ [] (by decide)]
    decide
  · rw [show ([⟨1, 0⟩, ⟨10009, -4⟩] : List Dec) = ⟨1, 0⟩ :: [] ++ [⟨10009, -4⟩] from rfl,
      c7_trend_piecewise.2.2.2 ⟨1, 0⟩ ⟨10009, -4⟩ [] (by decide)]
    decide
  · rw [show ([⟨0, 0⟩, ⟨5, 0⟩] : List Dec) = ⟨0, 0⟩ :: [] ++ [⟨5, 0⟩] from rfl,
      c7_trend_piecewise.2.2.1 ⟨0, 0⟩ ⟨5, 0⟩ [] (by decide)]

/-! ## C1: the conversion result

`(amount * rate).quantize(Decimal("0.0001"))` equals the exact
`amount * r` rounded half-even at 4 decimal places whenever the exact
product fits the 28-significant-digit context; for amounts large enough
that the product is first rounded by the context (at least 23 integer
digits), the double rounding can differ from the claim's single rounding,
and `quantize` can even raise. -/

theorem rheQ_intCast (n : ℤ) : rheQ (n : ℚ) = n := by
  unfold rheQ
  rw [Int.floor_intCast]
  norm_num

theorem floor_intCast_div_pow10 (n : ℤ) (k : ℕ) :
    ⌊(n : ℚ) / (10 : ℚ) ^ k⌋ = Int.fdiv n ((10 : ℤ) ^ k) := by
  rw [Int.fdiv_eq_ediv n (by positivity)]
  have := Rat.floor_intCast_div_natCast n (10 ^ k)
  push_cast at this
  exact this

theorem rheDiv_eq_rheQ (n : ℤ) (k : ℕ) :
    rheDiv n ((10 : ℤ) ^ k) = rheQ ((n : ℚ) / (10 : ℚ) ^ k) := by
  have hmq : (0 : ℚ) < (10 : ℚ) ^ k := by positivity
  have hmz : (0 : ℤ) < (10 : ℤ) ^ k := by positivity
  simp only [rheDiv, rheQ, floor_intCast_div_pow10 n k]
  set q : ℤ := Int.fdiv n ((10 : ℤ) ^ k) with hqdef
  have key : (n : ℚ) / (10 : ℚ) ^ k - (q : ℚ)
      = ((n - q * (10 : ℤ) ^ k : ℤ) : ℚ) / (10 : ℚ) ^ k := by
    push_cast
    field_simp
    ring
  rw [key]
  have c1 : (2 * (((n - q * (10 : ℤ) ^ k : ℤ) : ℚ) / (10 : ℚ) ^ k) < 1)
      ↔ (2 * (n - q * (10 : ℤ) ^ k) < (10 : ℤ) ^ k) := by
    rw [← mul_div_assoc, div_lt_one hmq]
    exact_mod_cast Iff.rfl
  have c2 : (1 < 2 * (((n - q * (10 : ℤ) ^ k : ℤ) : ℚ) / (10 : ℚ) ^ k))
      ↔ ((10 : ℤ) ^ k < 2 * (n - q * (10 : ℤ) ^ k)) := by
    rw [← mul_div_assoc, lt_div_iff₀ hmq, one_mul]
    exact_mod_cast Iff.rfl
  simp only [c1, c2]

theorem round28_self (d : Dec) (h : nDigits d.c ≤ 28) : round28 d = d := by
  unfold round28 roundSig
  rw [if_pos h]

theorem quantize4_eq_bankers (d : Dec) (h : nDigits (bankersRound4 d).c ≤ 28) :
    quantize4 d = Except.ok (bankersRound4 d) := by
  have hneg : (-(d.e + 4) : ℤ) = -4 + -d.e := by ring
  by_cases he : -4 ≤ d.e <;>
    simp only [quantize4, bankersRound4, hneg, he, if_true, if_false, ite_true,
      ite_false] at h ⊢ <;>
    simp [h]

theorem Dec.val_exactMul (a b : Dec) : (a.exactMul b).val = a.val * b.val := by
  unfold Dec.exactMul Dec.val
  push_cast
  rw [zpow_add₀ (by norm_num : (10 : ℚ) ≠ 0)]
  ring

theorem bankersRound4_val (d : Dec) : (bankersRound4 d).val = specRound4q d.val := by
  have h4 : ((10 : ℚ) ^ (4 : ℕ)) = 10000 := by norm_num
  have hm4 : ((10 : ℚ) ^ (-4 : ℤ)) = 10000⁻¹ := by norm_num
  by_cases he : -4 ≤ d.e
  · have hz : (d.c : ℚ) * (10 : ℚ) ^ d.e * 10 ^ (4 : ℕ)
        = ((d.c * (10 : ℤ) ^ (d.e + 4).toNat : ℤ) : ℚ) := by
      push_cast
      rw [← zpow_natCast (10 : ℚ) (d.e + 4).toNat, Int.toNat_of_nonneg (by omega),
        zpow_add₀ (by norm_num : (10 : ℚ) ≠ 0)]
      ring
    unfold bankersRound4 specRound4q Dec.val
    rw [if_pos he]
    simp only
    rw [hz, rheQ_intCast, hm4]
    push_cast
    ring
  · set k : ℕ := (-(d.e + 4)).toNat with hkdef
    have hk : d.e + 4 = -(k : ℤ) := by
      rw [hkdef, Int.toNat_of_nonneg (by omega)]
      ring
    have harg : (d.c : ℚ) * (10 : ℚ) ^ d.e * 10 ^ (4 : ℕ)
        = (d.c : ℚ) / (10 : ℚ) ^ k := by
      rw [show ((10 : ℚ) ^ (4 : ℕ)) = (10 : ℚ) ^ (4 : ℤ) from by norm_num,
        mul_assoc, ← zpow_add₀ (by norm_num : (10 : ℚ) ≠ 0), hk, zpow_neg,
        zpow_natCast]
      ring
    unfold bankersRound4 specRound4q Dec.val
    rw [if_neg he]
    simp only
    rw [harg, ← rheDiv_eq_rheQ, hm4, ← hkdef]
    ring

/-- C1 counterexample: the claim promises the exact `amount * r` rounded
half-even at 4 places for every amount; with `r = 1` and the 34-digit
amount `10^22 + 0.00014500001`, the context first rounds the product to 28
significant digits (`..., 00015`) and `quantize` then rounds that tie up,
giving `10^22 + 0.0002`, while the exact product rounds to
`10^22 + 0.0001`. -/
theorem c1_counterexample :
    ¬ (∀ (base target : String) (upstream : String → String → Option Dec)
        (r amount : Dec),
        toUpperStr base ≠ toUpperStr target →
        upstream (toUpperStr base) (toUpperStr target) = some r →
        (get_currency_conversion_result base target upstream amount).1
          = Except.ok (bankersRound4 (amount.exactMul r))) := by
  intro h
  have := h "EUR" "USD" (fun _ _ => some decOne) decOne ⟨10 ^ 33 + 14500001, -11⟩
    (by decide) rfl
  exact absurd this (by decide)

/-- C1 amended: for base/target distinct after upper-casing and the
upstream returning rate `r`, the conversion returns exactly `amount * r`
rounded to the fixed 4-decimal-place scale with round-half-even (the
decimal default), *provided* the exact product fits in the
28-significant-digit context and the quantized coefficient does too (both
hold for all amounts and rates of ordinary magnitude); the rounded value
agrees with the spec-level rational rounding `specRound4q`.  Outside that
range the context rounds the product first (see the counterexample) or
`quantize` raises `InvalidOperation`. -/
theorem c1_conversion_rounds_half_even (base target : String)
    (upstream : String → String → Option Dec) (r amount : Dec)
    (hne : toUpperStr base ≠ toUpperStr target)
    (hup : upstream (toUpperStr base) (toUpperStr target) = some r)
    (hprod : nDigits (amount.c * r.c) ≤ 28)
    (hq : nDigits (bankersRound4 (amount.exactMul r)).c ≤ 28) :
    (get_currency_conversion_result base target upstream amount).1
        = Except.ok (bankersRound4 (amount.exactMul r))
    ∧ (bankersRound4 (amount.exactMul r)).val = specRound4q (amount.val * r.val) := by
  constructor
  · simp only [get_currency_conversion_result, get_current_rate, if_neg hne, hup]
    unfold Dec.mul
    rw [round28_self _ hprod]
    exact quantize4_eq_bankers _ hq
  · rw [bankersRound4_val, Dec.val_exactMul]

theorem c1_conversion_rounds_half_even_witness :
    (get_currency_conversion_result "eur" "usd" (fun _ _ => some ⟨12345, -4⟩)
        ⟨1005, -1⟩).1
      = Except.ok (bankersRound4 (Dec.exactMul ⟨1005, -1⟩ ⟨12345, -4⟩))
    ∧ (bankersRound4 (Dec.exactMul ⟨1005, -1⟩ ⟨12345, -4⟩)).val
      = specRound4q (Dec.val ⟨1005, -1⟩ * Dec.val ⟨12345, -4⟩) :=
  c1_conversion_rounds_half_even "eur" "usd" (fun _ _ => some ⟨12345, -4⟩)
    ⟨12345, -4⟩ ⟨1005, -1⟩ (by decide) rfl (by decide) (by decide)

/-! ## C8: float inputs normalize via the shortest round-trip representation -/

/-- C8: `_to_decimal` converts a float through `Decimal(repr(x))`, i.e.
the shortest round-trip decimal representation followed by exact decimal
parsing (`float_repr`); in particular for the binary64 value nearest to
`0.1` the result is exactly the decimal `0.1` (value `1/10`, one
significant digit, the rounding of the double that round-trips), not the
binary artifact `0.1000000000000000055511151231257827021181583404541015625`
the double itself denotes. -/
theorem c8_float_normalizes_via_shortest_repr :
    (∀ d : Dec, to_decimal (PyVal.ofFloat d) = Except.ok (float_repr d))
    ∧ to_decimal (PyVal.ofFloat double01) = Except.ok ⟨1, -1⟩
    ∧ Dec.val ⟨1, -1⟩ = 1 / 10
    ∧ (roundToDouble ⟨1, -1⟩).eqvB double01 = true
    ∧ double01.eqvB ⟨1, -1⟩ = false := by
  refine ⟨fun d => rfl, by decide, ?_, by decide, by decide⟩
  unfold Dec.val
  norm_num

/-! ## C9: which input types raise in `_to_decimal`

The code accepts a fourth type, `Decimal`, returning the value unchanged,
so "raises for every type other than int/str/float" is wrong; and a `str`
of the accepted type can still raise (`InvalidOperation`), just not a
`TypeError`. -/

/-- The set of accepted input types as claimed (integer, string, float). -/
def claimedAccepted (v : PyVal) : Bool :=
  match v with
  | PyVal.ofInt _ => true
  | PyVal.ofStr _ => true
  | PyVal.ofFloat _ => true
  | _ => false

/-- C9 counterexample: the claim says `_to_decimal` raises for every input
whose type is not integer/string/float; the input `Decimal("5")` is of
none of those three types yet passes through without raising. -/
theorem c9_counterexample :
    ¬ (∀ v : PyVal, claimedAccepted v = false →
        to_decimal v = Except.error PyErr.typeError) := by
  intro h
  exact absurd (h (PyVal.ofDecimal ⟨5, 0⟩) rfl) (by simp [to_decimal])

/-- C9 amended: `_to_decimal` raises `TypeError` exactly for inputs whose
runtime type is none of `Decimal`, integer, string, or float (here: `None`
and `list`); `Decimal`, integer and float inputs never raise; a string
input never raises `TypeError`, but raises `InvalidOperation` when it is
not a numeric string — e.g. `"abc"`. -/
theorem c9_type_error_only_for_unsupported :
    (∀ d, to_decimal (PyVal.ofDecimal d) = Except.ok d)
    ∧ (∀ n, to_decimal (PyVal.ofInt n) = Except.ok ⟨n, 0⟩)
    ∧ (∀ d, to_decimal (PyVal.ofFloat d) = Except.ok (float_repr d))
    ∧ (∀ s, to_decimal (PyVal.ofStr s) = Except.error PyErr.invalidOperation
        ∨ ∃ d, to_decimal (PyVal.ofStr s) = Except.ok d)
    ∧ to_decimal PyVal.ofNone = Except.error PyErr.typeError
    ∧ (∀ xs, to_decimal (PyVal.ofList xs) = Except.error PyErr.typeError)
    ∧ to_decimal (PyVal.ofStr "abc") = Except.error PyErr.invalidOperation := by
  refine ⟨fun d => rfl, fun n => rfl, fun d => rfl, ?_, rfl, fun xs => rfl, by decide⟩
  intro s
  cases h : parseDecString s with
  | none => exact Or.inl (by simp [to_decimal, h])
  | some d => exact Or.inr ⟨d, by simp [to_decimal, h]⟩
